import Mathlib

/-!
Shallow embedding of the distributed chat peer (repository CSEN-317).

The embedding translates, from the Python sources under `src/`:
  * `src/common.py`    : `MessageType`, `Message` (with `__post_init__`),
                         `to_json` / `from_json` at the JSON-object level,
                         `ChatMessage`, `PeerInfo`;
  * `src/ordering.py`  : `OrderingManager` state and the functions
                         `handle_seq_chat`, `_deliver_message`,
                         `_deliver_buffered_messages`, `set_last_seq`;
  * `src/node.py`      : the SEQ_CHAT branch of `ChatNode._handle_message`
                         (including the storage appends done by the
                         delivery callback `_on_deliver_message`),
                         `_handle_join`, `_handle_join_ack`, the
                         `_on_become_leader` / `_on_new_coordinator`
                         callbacks, and the startup recovery seeding;
  * `src/election.py`  : `ElectionManager` state, `start_election`,
                         `handle_election_ok`, `handle_coordinator_message`,
                         `_become_coordinator`;
  * `src/membership.py`: the peer dictionary and its helpers;
  * `src/transport.py` : the outbound-connection cache, `connect`,
                         `send_to`, `get_failed_peers`.

Modelling conventions:
  * Python `dict`s become association lists with unique keys; `mlookup`,
    `minsert` (replace-in-place), `merase` mirror `d[k]`, `d[k] = v`,
    `del d[k]` / `d.pop(k)`.
  * Python ints are `Int`.  Wall-clock timestamps (`time.time()`) carry no
    logical content for any claim and are left out of `ChatMessage`.
  * Callbacks are inlined at their registration site (`node.py` wires
    `ordering.on_deliver = _on_deliver_message`, etc.); callback
    invocations are recorded in ghost lists (`deliveredLog`,
    `storage_appends`) so that counting claims can be stated.
  * Network sends are recorded as (destination, message) output lists.
  * Nondeterministic environment inputs (whether a TCP connect or send
    succeeds, whether an ELECTION_OK arrives during the election wait)
    are explicit boolean parameters.
  * The JSON text layer (`json.dumps` / `json.loads`) is treated as a
    faithful inverse pair; serialization is modelled at the level of the
    JSON object (an ordered key/value list), which is exactly the data
    both functions operate on.
-/

namespace DistChat

/- JSON values as produced/consumed by the Python code (floats, which no
protocol field uses, are not modelled).  Arrays and objects use the mutual
companions `JsonList` / `JsonObj` (lists of values / of key-value pairs). -/
mutual

inductive Json where
  | null : Json
  | bool (b : Bool) : Json
  | int (n : Int) : Json
  | str (s : String) : Json
  | arr (xs : JsonList) : Json
  | obj (kvs : JsonObj) : Json
deriving DecidableEq, Repr

inductive JsonList where
  | nil : JsonList
  | cons (hd : Json) (tl : JsonList) : JsonList
deriving DecidableEq, Repr

inductive JsonObj where
  | nil : JsonObj
  | cons (k : String) (v : Json) (tl : JsonObj) : JsonObj
deriving DecidableEq, Repr

end

/-- Membership test `k in kvs` / lookup `kvs.get(k)` on a JSON object
(first match, matching Python dict semantics under unique keys). -/
def JsonObj.get : JsonObj → String → Option Json
  | .nil, _ => none
  | .cons k2 v rest, k => if k2 = k then some v else rest.get k

/-- Python truthiness of a JSON-representable value (`None`, `False`, `0`,
the empty string, the empty list and the empty dict are falsy). -/
def Json.isFalsy : Json → Bool
  | .null => true
  | .bool b => !b
  | .int n => n == 0
  | .str s => s == ""
  | .arr xs => match xs with | .nil => true | _ => false
  | .obj kvs => match kvs with | .nil => true | _ => false

/-- Python `x or ""` applied to an optional JSON value (`common.py` uses
`message.payload or ""`). -/
def pyOrEmptyStr : Option Json → Json
  | none => .str ""
  | some v => if v.isFalsy then .str "" else v

/-! ### Association-list dictionaries (Python `dict`) -/

/-- `d.get(k)` / `k in d`. -/
def mlookup {κ α : Type} [DecidableEq κ] : List (κ × α) → κ → Option α
  | [], _ => none
  | (k2, v) :: rest, k => if k2 = k then some v else mlookup rest k

/-- `d[k] = v` (replace in place if the key exists, else append). -/
def minsert {κ α : Type} [DecidableEq κ] : List (κ × α) → κ → α → List (κ × α)
  | [], k, v => [(k, v)]
  | (k2, v2) :: rest, k, v =>
      if k2 = k then (k, v) :: rest else (k2, v2) :: minsert rest k v

/-- `del d[k]` / `d.pop(k)` (removes the entry for `k`, if any). -/
def merase {κ α : Type} [DecidableEq κ] : List (κ × α) → κ → List (κ × α)
  | [], _ => []
  | (k2, v2) :: rest, k => if k2 = k then rest else (k2, v2) :: merase rest k

/-! ### `common.py`: message types and schemas -/

/-- `MessageType` enum from `common.py`. -/
inductive MessageType where
  | JOIN | JOIN_ACK | HEARTBEAT | ELECTION | ELECTION_OK | COORDINATOR
  | CHAT | SEQ_CHAT | CATCHUP_REQ | CATCHUP_RESP
deriving DecidableEq, Repr

/-- The `.value` string of a `MessageType` member. -/
def MessageType.value : MessageType → String
  | .JOIN => "JOIN"
  | .JOIN_ACK => "JOIN_ACK"
  | .HEARTBEAT => "HEARTBEAT"
  | .ELECTION => "ELECTION"
  | .ELECTION_OK => "ELECTION_OK"
  | .COORDINATOR => "COORDINATOR"
  | .CHAT => "CHAT"
  | .SEQ_CHAT => "SEQ_CHAT"
  | .CATCHUP_REQ => "CATCHUP_REQ"
  | .CATCHUP_RESP => "CATCHUP_RESP"

/-- `MessageType(s)`: enum lookup by value, `none` when the string names no
member (Python raises `ValueError`). -/
def MessageType.ofString : String → Option MessageType
  | "JOIN" => some .JOIN
  | "JOIN_ACK" => some .JOIN_ACK
  | "HEARTBEAT" => some .HEARTBEAT
  | "ELECTION" => some .ELECTION
  | "ELECTION_OK" => some .ELECTION_OK
  | "COORDINATOR" => some .COORDINATOR
  | "CHAT" => some .CHAT
  | "SEQ_CHAT" => some .SEQ_CHAT
  | "CATCHUP_REQ" => some .CATCHUP_REQ
  | "CATCHUP_RESP" => some .CATCHUP_RESP
  | _ => none

/-- `NodeRole` enum from `common.py`. -/
inductive NodeRole where
  | LEADER | FOLLOWER | CANDIDATE
deriving DecidableEq, Repr

/-- `PeerInfo` dataclass from `common.py`. -/
structure PeerInfo where
  node_id : Int
  host : String
  port : Int
deriving DecidableEq, Repr

/-- The `Message` dataclass from `common.py` (all protocol traffic).
Fields follow the dataclass; the typed optional fields carry exactly the
JSON-representable values the protocol puts in them. -/
structure Message where
  type : MessageType
  sender_id : Int
  term : Int
  room_id : String
  msg_id : Option String
  seq_no : Option Int
  payload : Option Json
  membership : Option JsonList
  last_seq : Option Int
  leader_id : Option Int
deriving DecidableEq, Repr

/-- Dataclass construction with the defaulted optional fields all absent:
`Message(type=t, sender_id=s, term=tm)` before `__post_init__` runs. -/
def mkMessage (t : MessageType) (sender : Int) (term : Int) : Message :=
  { type := t, sender_id := sender, term := term, room_id := "general",
    msg_id := none, seq_no := none, payload := none, membership := none,
    last_seq := none, leader_id := none }

/-- `Message.__post_init__`: a CHAT / SEQ_CHAT constructed without a
`msg_id` receives a fresh UUID string; the fresh value is an explicit
parameter (Python draws it from `uuid.uuid4()`). -/
def post_init (fresh : String) (m : Message) : Message :=
  if m.msg_id = none ∧ (m.type = .CHAT ∨ m.type = .SEQ_CHAT) then
    { m with msg_id := some fresh }
  else m

/-- `ChatMessage` dataclass from `common.py`.  The `timestamp` field
(wall-clock `time.time()`) carries no logical content for any claim and is
not modelled. -/
structure ChatMessage where
  seq_no : Int
  term : Int
  msg_id : String
  sender_id : Int
  room_id : String
  text : Json
deriving DecidableEq, Repr

/-! ### `ordering.py`: `OrderingManager` -/

/-- Mutable state of `OrderingManager` (`ordering.py`), plus the ghost
field `deliveredLog` recording, in order, every message passed to the
delivery callback `on_deliver`. -/
structure OrderingState where
  last_seq : Int
  next_expected_seq : Int
  message_buffer : List (Int × ChatMessage)
  delivered : List ((Int × Int) × Bool)
  deliveredLog : List ChatMessage
deriving DecidableEq, Repr

/-- `OrderingManager.__init__`: `last_seq = 0`, `next_expected_seq = 1`,
empty buffer and delivered set. -/
def initOrdering : OrderingState :=
  { last_seq := 0, next_expected_seq := 1, message_buffer := [],
    delivered := [], deliveredLog := [] }

/-- `(seq_no, term) in self.delivered`. -/
def dmem (st : OrderingState) (k : Int × Int) : Bool :=
  (mlookup st.delivered k).isSome

/-- `OrderingManager._deliver_message`: mark `(seq_no, term)` delivered,
advance `next_expected_seq` to `seq_no + 1`, invoke the delivery callback
(recorded in `deliveredLog`).  Note the source does not touch `last_seq`. -/
def deliver_message (st : OrderingState) (m : ChatMessage) : OrderingState :=
  { st with
    delivered := minsert st.delivered (m.seq_no, m.term) true,
    next_expected_seq := m.seq_no + 1,
    deliveredLog := st.deliveredLog ++ [m] }

/-- Iteration core of `OrderingManager._deliver_buffered_messages`: while
the buffer holds `next_expected_seq`, pop that entry and deliver it.  Each
iteration strictly shrinks the buffer, so the `while` loop runs at most
`buffer.length` times; the `fuel` argument makes that bound explicit (and
`deliver_buffered_fuel_stable` below proves the bound never binds). -/
def deliver_buffered_fuel : Nat → OrderingState → OrderingState
  | 0, st => st
  | fuel + 1, st =>
      match mlookup st.message_buffer st.next_expected_seq with
      | none => st
      | some m =>
          deliver_buffered_fuel fuel
            (deliver_message
              { st with message_buffer := merase st.message_buffer st.next_expected_seq } m)

/-- `OrderingManager._deliver_buffered_messages`. -/
def deliver_buffered_messages (st : OrderingState) : OrderingState :=
  deliver_buffered_fuel st.message_buffer.length st

/-- The `ChatMessage` that `handle_seq_chat` builds from an incoming
SEQ_CHAT wire message (given its present `seq_no`). -/
def chat_of_seq_chat (message : Message) (seq_no : Int) : ChatMessage :=
  { seq_no := seq_no, term := message.term,
    msg_id := message.msg_id.getD "",
    sender_id := message.sender_id,
    room_id := message.room_id,
    text := pyOrEmptyStr message.payload }

/-- `OrderingManager.handle_seq_chat`: returns `(newly_delivered, state)`. -/
def handle_seq_chat (st : OrderingState) (message : Message) : Bool × OrderingState :=
  match message.seq_no with
  | none => (false, st)
  | some seq_no =>
      if dmem st (seq_no, message.term) then (false, st)
      else
        let chat_msg := chat_of_seq_chat message seq_no
        if seq_no = st.next_expected_seq then
          (true, deliver_buffered_messages (deliver_message st chat_msg))
        else if seq_no > st.next_expected_seq then
          (false, { st with message_buffer := minsert st.message_buffer seq_no chat_msg })
        else
          (false, st)

/-- `OrderingManager.set_last_seq` (recovery from storage). -/
def set_last_seq (st : OrderingState) (seq : Int) : OrderingState :=
  { st with
    last_seq := max st.last_seq seq,
    next_expected_seq := max st.next_expected_seq (seq + 1) }

/-! ### Ordering invariants -/

/-- The integer interval `[a, b)` as a list, in increasing order. -/
def intRange (a b : Int) : List Int :=
  (List.range (b - a).toNat).map (fun i => a + Int.ofNat i)

/-- Buffer half of the ordering invariant: every buffer entry sits at or
past the delivery frontier, each entry's message carries its key as its
`seq_no`, and keys are unique (Python dict). -/
abbrev BufferInv (st : OrderingState) : Prop :=
  (∀ p ∈ st.message_buffer, st.next_expected_seq ≤ p.1 ∧ (p.2).seq_no = p.1) ∧
  (st.message_buffer.map Prod.fst).Nodup

/-- Log half of the ordering invariant: the messages handed to the delivery
callback so far carry exactly the sequence numbers `1, …, next_expected_seq - 1`,
in increasing order. -/
abbrev LogInv (st : OrderingState) : Prop :=
  1 ≤ st.next_expected_seq ∧
  st.deliveredLog.map (fun m => m.seq_no) = intRange 1 st.next_expected_seq

/-- Invariant preserved through the buffered-delivery loop. -/
abbrev OrdCoreInv (st : OrderingState) : Prop := LogInv st ∧ BufferInv st

/-- Invariant at rest (between `handle_seq_chat` calls): additionally the
buffer never holds the frontier key itself. -/
abbrev OrdInv (st : OrderingState) : Prop :=
  OrdCoreInv st ∧ mlookup st.message_buffer st.next_expected_seq = none

/-- Sequence number of the last message handed to the delivery callback
(`0` when nothing has been delivered yet). -/
def last_delivered_seq (st : OrderingState) : Int :=
  ((st.deliveredLog.map (fun m => m.seq_no)).getLast?).getD 0

/-- A concrete SEQ_CHAT wire message used by witnesses below. -/
def msgW1 : Message :=
  { type := .SEQ_CHAT, sender_id := 2, term := 1, room_id := "general",
    msg_id := some "m1", seq_no := some 1, payload := some (.str "hi"),
    membership := none, last_seq := none, leader_id := none }

/-- A concrete delivered chat message used by counterexamples below. -/
def chatA : ChatMessage :=
  { seq_no := 1, term := 1, msg_id := "a", sender_id := 2,
    room_id := "general", text := .str "x" }

/-- `ChatNode.start` / `StorageManager.recover_state`: the recovered
`last_seq` is the maximum stored `seq_no` (`0` for an empty log). -/
def recoverLastSeq (msgs : List ChatMessage) : Int :=
  match msgs.map (fun m => m.seq_no) with
  | [] => 0
  | x :: xs => xs.foldl max x

/-- Startup seeding of the ordering manager (`node.py` lines 94-97): the
only call made into ordering during recovery is `set_last_seq`. -/
def recovery_seed (msgs : List ChatMessage) : OrderingState :=
  set_last_seq initOrdering (recoverLastSeq msgs)

/-! ### `node.py`: the SEQ_CHAT branch of `ChatNode._handle_message` -/

/-- Node-level state for the SEQ_CHAT path: the ordering manager plus the
ghost list of every `ChatMessage` appended to storage (in append order).
`ChatNode` wires `ordering.on_deliver = _on_deliver_message`, and
`_on_deliver_message` appends the delivered message to storage, so each
message added to `deliveredLog` during `handle_seq_chat` is also a storage
append. -/
structure NodeChatState where
  ord : OrderingState
  storage_appends : List ChatMessage
deriving DecidableEq, Repr

/-- The `ChatMessage` that the SEQ_CHAT branch of `_handle_message`
rebuilds for its own storage append (`node.py` lines 190-197; note the
Python `or` defaults). -/
def branch_chat_message (message : Message) : ChatMessage :=
  { seq_no := (message.seq_no).getD 0,
    term := message.term,
    msg_id := (message.msg_id).getD "",
    sender_id := message.sender_id,
    room_id := message.room_id,
    text := pyOrEmptyStr message.payload }

/-- The SEQ_CHAT branch of `ChatNode._handle_message`: run
`ordering.handle_seq_chat` (whose delivery callback
`_on_deliver_message` appends each delivered message to storage), and if
it reports a new delivery, append the rebuilt message to storage again. -/
def handle_message_seq_chat (st : NodeChatState) (message : Message) : NodeChatState :=
  let r := handle_seq_chat st.ord message
  let callback_appends := r.2.deliveredLog.drop st.ord.deliveredLog.length
  let appends1 := st.storage_appends ++ callback_appends
  if r.1 then
    { ord := r.2, storage_appends := appends1 ++ [branch_chat_message message] }
  else
    { ord := r.2, storage_appends := appends1 }

/-- The SEQ_CHAT frame `(seq_no = 7, term = 2)` of the spec's duplicate
scenario. -/
def msgSeq7 : Message :=
  { type := .SEQ_CHAT, sender_id := 3, term := 2, room_id := "general",
    msg_id := some "u7", seq_no := some 7, payload := some (.str "hello"),
    membership := none, last_seq := none, leader_id := none }

/-- Node state whose ordering manager expects `seq_no = 7` next (as after
recovering a log with `last_seq = 6`), with no appends yet. -/
def nodeChat7 : NodeChatState :=
  { ord := set_last_seq initOrdering 6, storage_appends := [] }

/-! ### `membership.py`: `MembershipManager` -/

/-- `PeerInfo.to_dict` (field order of the dataclass). -/
def PeerInfo.to_dict (p : PeerInfo) : Json :=
  .obj (.cons "node_id" (.int p.node_id)
    (.cons "host" (.str p.host)
      (.cons "port" (.int p.port) .nil)))

/-- `PeerInfo.from_dict`: reads `node_id`, `host`, `port`; `none` models
the `KeyError` a malformed dict raises (entries whose values have the
wrong JSON type have no counterpart in the typed dataclass and are also
mapped to `none`). -/
def PeerInfo.from_dict (kvs : JsonObj) : Option PeerInfo :=
  match kvs.get "node_id", kvs.get "host", kvs.get "port" with
  | some (.int nid), some (.str h), some (.int prt) =>
      some { node_id := nid, host := h, port := prt }
  | _, _, _ => none

/-- Mutable state of `MembershipManager` (`membership.py`): the peer
dictionary (id → `PeerInfo`, insertion-ordered, always containing self)
and the optional leader id.  Seed peers play no role in the claims. -/
structure MembershipManager where
  node_id : Int
  peers : List (Int × PeerInfo)
  leader_id : Option Int
deriving DecidableEq, Repr

/-- `MembershipManager.add_peer`. -/
def add_peer (m : MembershipManager) (p : PeerInfo) : MembershipManager :=
  if p.node_id ≠ m.node_id then
    { m with peers := minsert m.peers p.node_id p }
  else m

/-- `MembershipManager.get_peer`. -/
def get_peer (m : MembershipManager) (node_id : Int) : Option PeerInfo :=
  mlookup m.peers node_id

/-- `MembershipManager.get_other_peers`. -/
def get_other_peers (m : MembershipManager) : List PeerInfo :=
  (m.peers.map Prod.snd).filter (fun p => p.node_id ≠ m.node_id)

/-- `MembershipManager.get_higher_priority_peers`: peers with
`node_id > self.node_id`. -/
def get_higher_priority_peers (m : MembershipManager) : List PeerInfo :=
  (m.peers.map Prod.snd).filter (fun p => p.node_id > m.node_id)

/-- `MembershipManager.set_leader`. -/
def set_leader (m : MembershipManager) (leader_id : Int) : MembershipManager :=
  { m with leader_id := some leader_id }

/-- `MembershipManager.get_membership_list`. -/
def get_membership_list (m : MembershipManager) : JsonList :=
  (m.peers.map (fun q => PeerInfo.to_dict q.2)).foldr JsonList.cons .nil

/-- `MembershipManager.update_from_membership_list`: merge received
entries, skipping self; a malformed entry raises inside the Python loop
and aborts the remaining merge (the already-merged prefix is kept). -/
def update_from_membership_list (m : MembershipManager) : JsonList → MembershipManager
  | .nil => m
  | .cons d rest =>
      match d with
      | .obj kvs =>
          match kvs.get "node_id" with
          | some (.int nid) =>
              if nid ≠ m.node_id then
                match PeerInfo.from_dict kvs with
                | some p => update_from_membership_list (add_peer m p) rest
                | none => m
              else update_from_membership_list m rest
          | _ => m
      | _ => m

/-! ### `election.py` + `node.py`: election state machine and callbacks -/

/-- Mutable state of `ElectionManager` (`election.py`). -/
structure ElectionManager where
  node_id : Int
  current_term : Int
  election_in_progress : Bool
  received_ok : Bool
deriving DecidableEq, Repr

/-- The composed peer state for the coordination claims: `ChatNode`'s own
`role` and `current_term` (`node.py`), its `ElectionManager` and its
`MembershipManager`.  Note the source keeps `ChatNode.current_term` and
`ElectionManager.current_term` as two separate attributes.  The failure
detector's timers and its own role/term mirror carry no logical content
for these claims and are not modelled. -/
structure ChatNode where
  node_id : Int
  role : NodeRole
  current_term : Int
  election : ElectionManager
  membership : MembershipManager
deriving DecidableEq, Repr

/-- `ElectionManager._become_coordinator` composed with the registered
`on_become_leader` callback `ChatNode._on_become_leader`: set the
membership leader to self, broadcast COORDINATOR carrying
`election.current_term` to all other peers, then the callback sets
`role = LEADER` and `ChatNode.current_term = term`.  (The callback's
heartbeat-task switching has no state modelled here.) -/
def become_coordinator (st : ChatNode) : ChatNode × List (PeerInfo × Message) :=
  let m1 := set_leader st.membership st.node_id
  let coordinator_msg := mkMessage .COORDINATOR st.node_id st.election.current_term
  let sends := (get_other_peers m1).map (fun p => (p, coordinator_msg))
  let st2 :=
    { st with
      membership := m1, role := NodeRole.LEADER,
      current_term := st.election.current_term }
  (st2, sends)

/-- Result of `start_election`: the returned boolean, the post-state, and
every (destination, message) pair handed to the transport. -/
structure ElectionOutcome where
  won : Bool
  node : ChatNode
  sent : List (PeerInfo × Message)
deriving DecidableEq, Repr

/-- `ElectionManager.start_election` composed with the node callbacks.
`okArrives` tells whether an ELECTION_OK reaches this peer during the
`election_timeout` sleep (`handle_election_ok` sets `received_ok` then);
it is irrelevant on the no-higher-peer path, which never waits. -/
def start_election (st : ChatNode) (okArrives : Bool) : ElectionOutcome :=
  if st.election.election_in_progress then
    { won := false, node := st, sent := [] }
  else
    let e1 := { st.election with
      election_in_progress := true, received_ok := false,
      current_term := st.election.current_term + 1 }
    let st1 := { st with election := e1 }
    let higher_peers := get_higher_priority_peers st1.membership
    if higher_peers.isEmpty then
      let r := become_coordinator st1
      { won := true,
        node := { r.1 with election := { r.1.election with election_in_progress := false } },
        sent := r.2 }
    else
      let election_msg := mkMessage .ELECTION st1.node_id e1.current_term
      let sends := higher_peers.map (fun p => (p, election_msg))
      let e2 := { e1 with received_ok := okArrives }
      let st2 := { st1 with election := e2 }
      if !e2.received_ok then
        let r := become_coordinator st2
        { won := true,
          node := { r.1 with election := { r.1.election with election_in_progress := false } },
          sent := sends ++ r.2 }
      else
        { won := false,
          node := { st2 with election := { e2 with election_in_progress := false } },
          sent := sends }

/-- HEARTBEAT branch of `ChatNode._handle_message`
(`failure.record_heartbeat` only refreshes the heartbeat clock). -/
def handle_heartbeat (st : ChatNode) (message : Message) : ChatNode :=
  if message.term > st.current_term then
    { st with current_term := message.term }
  else st

/-- `ElectionManager.handle_election_ok`. -/
def handle_election_ok (st : ChatNode) : ChatNode :=
  { st with election := { st.election with received_ok := true } }

/-- `ElectionManager.handle_coordinator_message` composed with the
registered `on_new_coordinator` callback `ChatNode._on_new_coordinator`:
a COORDINATOR whose term is at least `election.current_term` is adopted
(election term, membership leader), then the callback sets
`role = FOLLOWER` and `ChatNode.current_term = term`.  (The callback's
heartbeat switching and its catch-up request carry no state modelled
here.) -/
def handle_coordinator_message (st : ChatNode) (message : Message) : ChatNode :=
  if message.term ≥ st.election.current_term then
    { st with
      election := { st.election with current_term := message.term },
      membership := set_leader st.membership message.sender_id,
      role := .FOLLOWER,
      current_term := message.term }
  else st

/-- Reply path of `ElectionManager.handle_election_message`: a sender with
lower id gets ELECTION_OK carrying `election.current_term`; the election
this handler may then spawn runs as its own task and is modelled as a
separate `start_election` step. -/
def handle_election_message (st : ChatNode) (message : Message) :
    ChatNode × List (PeerInfo × Message) :=
  if message.sender_id < st.node_id then
    let ok_msg := mkMessage .ELECTION_OK st.node_id st.election.current_term
    match get_peer st.membership message.sender_id with
    | some p => (st, [(p, ok_msg)])
    | none => (st, [])
  else (st, [])

/-- Membership merge done by `_handle_join` / `_handle_join_ack`
(`if message.membership:` — absent and empty lists are both falsy and
skip the merge). -/
def merged_membership (st : ChatNode) (message : Message) : MembershipManager :=
  match message.membership with
  | some (JsonList.cons d rest) =>
      update_from_membership_list st.membership (.cons d rest)
  | _ => st.membership

/-- The JOIN_ACK reply built by `ChatNode._handle_join`: membership
snapshot after the merge, the node's current term — and no `leader_id`
(the source never sets that field). -/
def join_ack_message (st : ChatNode) (message : Message) : Message :=
  { type := .JOIN_ACK, sender_id := st.node_id, term := st.current_term,
    room_id := "general", msg_id := none, seq_no := none, payload := none,
    membership := some (get_membership_list (merged_membership st message)),
    last_seq := none, leader_id := none }

/-- Destination of a message sent by `_handle_join`: a known peer's
server address, or the incoming connection as fallback. -/
inductive Dest where
  | peer (p : PeerInfo)
  | conn
deriving DecidableEq, Repr

/-- The JOIN_ACK reply of `_handle_join` with its destination: the
sender's server address when the merged membership knows it, else the
incoming connection. -/
def join_reply (st : ChatNode) (message : Message) : Dest × Message :=
  match get_peer (merged_membership st message) message.sender_id with
  | some p => (Dest.peer p, join_ack_message st message)
  | none => (Dest.conn, join_ack_message st message)

/-- The COORDINATOR announcement a leader builds in `_handle_join`
(`node.py` lines 232-241): its own term, and its own `PeerInfo` as the
membership list when its membership knows itself. -/
def join_coordinator_message (st : ChatNode) (message : Message) : Message :=
  { type := MessageType.COORDINATOR, sender_id := st.node_id,
    term := st.current_term, room_id := "general", msg_id := none,
    seq_no := none, payload := none,
    membership := some (match get_peer (merged_membership st message) st.node_id with
      | some self_peer => JsonList.cons self_peer.to_dict .nil
      | none => JsonList.nil),
    last_seq := none, leader_id := none }

/-- The COORDINATOR send of `_handle_join` (`node.py` lines 231-250): only
a leader sends it, and only when the joiner's address is known in the
merged membership (`if peer:` at line 245); otherwise nothing is sent. -/
def join_coordinator_sends (st : ChatNode) (message : Message) :
    List (Dest × Message) :=
  if st.role = NodeRole.LEADER then
    match get_peer (merged_membership st message) message.sender_id with
    | some p => [(Dest.peer p, join_coordinator_message st message)]
    | none => []
  else []

/-- `ChatNode._handle_join`: merge the request's membership, reply with a
JOIN_ACK, and, when leader, also send a COORDINATOR to the joiner. -/
def handle_join (st : ChatNode) (message : Message) :
    ChatNode × List (Dest × Message) :=
  ({ st with membership := merged_membership st message },
   join_reply st message :: join_coordinator_sends st message)

/-- `ChatNode._handle_join_ack`: merge the carried membership; nothing
else is read from the message. -/
def handle_join_ack (st : ChatNode) (message : Message) : ChatNode :=
  { st with membership := merged_membership st message }

/-- The state transitions of a peer relevant to term evolution. -/
inductive NodeEvent where
  | heartbeat (message : Message)
  | election (message : Message)
  | electionOk (message : Message)
  | coordinator (message : Message)
  | join (message : Message)
  | joinAck (message : Message)
  | startElection (okArrives : Bool)
deriving Repr

/-- One handler invocation of the composed peer state machine
(`ChatNode._handle_message` dispatch plus the election-start trigger). -/
def node_step (st : ChatNode) (e : NodeEvent) : ChatNode :=
  match e with
  | .heartbeat m => handle_heartbeat st m
  | .election m => (handle_election_message st m).1
  | .electionOk _ => handle_election_ok st
  | .coordinator m => handle_coordinator_message st m
  | .join m => (handle_join st m).1
  | .joinAck m => handle_join_ack st m
  | .startElection ok => (start_election st ok).node

/-! ### Concrete peers and nodes for witnesses and counterexamples -/

def peer1 : PeerInfo := { node_id := 1, host := "127.0.0.1", port := 5001 }

def peer2 : PeerInfo := { node_id := 2, host := "127.0.0.1", port := 5002 }

/-- A freshly started follower, id 1, knowing itself and peer 2. -/
def nodeA : ChatNode :=
  { node_id := 1, role := .FOLLOWER, current_term := 0,
    election := { node_id := 1, current_term := 0,
                  election_in_progress := false, received_ok := false },
    membership := { node_id := 1, peers := [(1, peer1), (2, peer2)],
                    leader_id := none } }

/-- A leader node, id 2, that knows itself and is its own leader. -/
def nodeL : ChatNode :=
  { node_id := 2, role := .LEADER, current_term := 3,
    election := { node_id := 2, current_term := 3,
                  election_in_progress := false, received_ok := false },
    membership := { node_id := 2, peers := [(2, peer2)], leader_id := some 2 } }

/-- The JOIN_ACK message of the C7 counterexample: carries a leader id
and a higher term, neither of which the handler adopts. -/
def joinAckIn : Message :=
  { type := .JOIN_ACK, sender_id := 2, term := 5, room_id := "general",
    msg_id := none, seq_no := none, payload := none, membership := none,
    last_seq := none, leader_id := some 3 }

/-- A JOIN request from peer 1 carrying its own `PeerInfo`, so the
handler's merged membership knows the joiner's address. -/
def joinFrom1 : Message :=
  { type := .JOIN, sender_id := 1, term := 0, room_id := "general",
    msg_id := none, seq_no := none, payload := none,
    membership := some (JsonList.cons peer1.to_dict .nil),
    last_seq := none, leader_id := none }

/-! ### `transport.py`: `TransportLayer` -/

/-- Mutable state of `TransportLayer` (`transport.py`): the outbound
connection cache keyed by `(host, port)` (the socket object itself
carries no logical content and is modelled as `Unit`) and the per-address
consecutive-failure counters. -/
structure TransportLayer where
  connections : List ((String × Int) × Unit)
  failure_counts : List ((String × Int) × Nat)
  max_failures : Nat
deriving DecidableEq, Repr

/-- `TransportLayer.__init__` (with the default `max_failures = 3`). -/
def initTransport : TransportLayer :=
  { connections := [], failure_counts := [], max_failures := 3 }

/-- `TransportLayer.connect`: return the cached connection if present;
otherwise attempt `open_connection` (the environment decides `connectOk`):
on success cache it and clear the failure counter, on failure bump the
counter.  Returns whether a connection was obtained. -/
def connect (st : TransportLayer) (host : String) (port : Int)
    (connectOk : Bool) : Bool × TransportLayer :=
  let addr := (host, port)
  if (mlookup st.connections addr).isSome then (true, st)
  else if connectOk then
    (true, { st with
      connections := minsert st.connections addr (),
      failure_counts := merase st.failure_counts addr })
  else
    (false, { st with
      failure_counts := minsert st.failure_counts addr
        ((mlookup st.failure_counts addr).getD 0 + 1) })

/-- `TransportLayer.send_to`: connect, then send (the environment decides
`sendOk`); a failed send evicts the cached connection and bumps the
failure counter, a successful send clears it. -/
def send_to (st : TransportLayer) (host : String) (port : Int)
    (connectOk sendOk : Bool) : Bool × TransportLayer :=
  let addr := (host, port)
  let c := connect st host port connectOk
  if c.1 then
    if sendOk then
      (true, { c.2 with failure_counts := merase c.2.failure_counts addr })
    else
      (false, { c.2 with
        connections := merase c.2.connections addr,
        failure_counts := minsert c.2.failure_counts addr
          ((mlookup c.2.failure_counts addr).getD 0 + 1) })
  else (false, c.2)

/-- `TransportLayer.get_failed_peers`: addresses whose consecutive-failure
count has reached `max_failures`. -/
def get_failed_peers (st : TransportLayer) : List (String × Int) :=
  (st.failure_counts.filter (fun p => p.2 ≥ st.max_failures)).map Prod.fst

/-- A fresh-connect-then-failed-send input showing the counter reset. -/
def transport2fails : TransportLayer :=
  { connections := [], failure_counts := [(("h", 1), 2)], max_failures := 3 }

/-! ### `common.py`: `Message.to_json` / `Message.from_json`

`to_json` builds a Python dict and `json.dumps` it; `from_json` is
`json.loads` followed by field extraction.  `json.dumps` / `json.loads`
are an inverse pair on such dicts, so serialization is embedded at the
level of the JSON object: an ordered key/value list. -/

/-- One conditional insertion of `Message.to_json`:
`if field is not None: data[k] = encode(field)`. -/
def optField {α : Type} (k : String) (g : α → Json) : Option α → List (String × Json)
  | some v => [(k, g v)]
  | none => []

/-- The dict built by `Message.to_json` (insertion order of the source;
optional fields are included exactly when not `None`). -/
def Message.to_dict (m : Message) : List (String × Json) :=
  [("type", Json.str m.type.value), ("sender_id", Json.int m.sender_id),
   ("term", Json.int m.term), ("room_id", Json.str m.room_id)]
  ++ optField "msg_id" Json.str m.msg_id
  ++ optField "seq_no" Json.int m.seq_no
  ++ optField "payload" (fun v => v) m.payload
  ++ optField "membership" Json.arr m.membership
  ++ optField "last_seq" Json.int m.last_seq
  ++ optField "leader_id" Json.int m.leader_id

/-- `obj.get(k)` for an optional string field: an absent key — or a JSON
`null`, which `json.loads` turns into Python `None` — yields `None`; a
present string yields it; any other JSON type has no counterpart in the
typed dataclass field and is rejected. -/
def getOptStr (obj : List (String × Json)) (k : String) : Option (Option String) :=
  match mlookup obj k with
  | none => some none
  | some .null => some none
  | some (.str s) => some (some s)
  | some _ => none

/-- `obj.get(k)` for an optional integer field (same conventions). -/
def getOptInt (obj : List (String × Json)) (k : String) : Option (Option Int) :=
  match mlookup obj k with
  | none => some none
  | some .null => some none
  | some (.int n) => some (some n)
  | some _ => none

/-- `obj.get(k)` for an optional list field (same conventions). -/
def getOptArr (obj : List (String × Json)) (k : String) : Option (Option JsonList) :=
  match mlookup obj k with
  | none => some none
  | some .null => some none
  | some (.arr l) => some (some l)
  | some _ => none

/-- `obj.get("payload")`: any JSON value is accepted; a JSON `null` loads
as Python `None`. -/
def getPayload (obj : List (String × Json)) : Option Json :=
  match mlookup obj "payload" with
  | some Json.null => none
  | other => other

/-- `Message.from_json` at the dict level: extract the required fields
(`none` models the `KeyError` / enum `ValueError` an ill-formed object
raises), the optionals with `.get`, then run the dataclass constructor
including `__post_init__` (with its fresh UUID as a parameter). -/
def Message.from_dict (fresh : String) (obj : List (String × Json)) : Option Message := do
  let tv ← mlookup obj "type"
  let ts ← match tv with | .str s => some s | _ => none
  let ty ← MessageType.ofString ts
  let sv ← mlookup obj "sender_id"
  let sid ← match sv with | .int n => some n | _ => none
  let tmv ← mlookup obj "term"
  let tm ← match tmv with | .int n => some n | _ => none
  let room ← match mlookup obj "room_id" with
    | none => some "general"
    | some (.str s) => some s
    | some _ => none
  let mid ← getOptStr obj "msg_id"
  let sq ← getOptInt obj "seq_no"
  let pay : Option Json := getPayload obj
  let mem ← getOptArr obj "membership"
  let ls ← getOptInt obj "last_seq"
  let lid ← getOptInt obj "leader_id"
  pure (post_init fresh
    { type := ty, sender_id := sid, term := tm, room_id := room, msg_id := mid,
      seq_no := sq, payload := pay, membership := mem, last_seq := ls,
      leader_id := lid })

/-- A CHAT message whose `msg_id` is absent: its encoding omits `msg_id`,
and decoding regenerates a fresh one via `__post_init__`. -/
def chatNoId : Message :=
  { type := .CHAT, sender_id := 1, term := 0, room_id := "general",
    msg_id := none, seq_no := none, payload := some (.str "hi"),
    membership := none, last_seq := none, leader_id := none }

/-! ### Theorems -/

theorem mlookup_mem {κ α : Type} [DecidableEq κ] {l : List (κ × α)} {k : κ} {v : α}
    (h : mlookup l k = some v) : (k, v) ∈ l := by
  induction l with
  | nil => simp [mlookup] at h
  | cons p rest ih =>
    obtain ⟨k2, v2⟩ := p
    by_cases hk : k2 = k
    · subst hk
      simp [mlookup] at h
      simp [h]
    · simp [mlookup, hk] at h
      exact List.mem_cons_of_mem _ (ih h)

theorem merase_length_lt {κ α : Type} [DecidableEq κ] {l : List (κ × α)} {k : κ} {v : α}
    (h : mlookup l k = some v) : (merase l k).length < l.length := by
  induction l with
  | nil => simp [mlookup] at h
  | cons p rest ih =>
    obtain ⟨k2, v2⟩ := p
    by_cases hk : k2 = k
    · simp [merase, hk]
    · simp [mlookup, hk] at h
      simpa [merase, hk, Nat.succ_lt_succ_iff] using ih h

theorem merase_sublist {κ α : Type} [DecidableEq κ] (l : List (κ × α)) (k : κ) :
    (merase l k).Sublist l := by
  induction l with
  | nil => simp [merase]
  | cons q rest ih =>
    obtain ⟨k2, v2⟩ := q
    by_cases hk : k2 = k
    · rw [merase]
      simp only [hk, if_pos rfl]
      exact List.sublist_cons_self _ _
    · rw [merase]
      simp only [if_neg hk]
      exact List.Sublist.cons₂ _ ih

theorem mem_of_mem_merase {κ α : Type} [DecidableEq κ] {l : List (κ × α)} {k : κ}
    {p : κ × α} (h : p ∈ merase l k) : p ∈ l :=
  (merase_sublist l k).mem h

theorem nodup_keys_merase {κ α : Type} [DecidableEq κ] {l : List (κ × α)} {k : κ}
    (h : (l.map Prod.fst).Nodup) : ((merase l k).map Prod.fst).Nodup :=
  List.Nodup.sublist (List.Sublist.map Prod.fst (merase_sublist l k)) h

theorem not_mem_merase_of_nodup {κ α : Type} [DecidableEq κ] {l : List (κ × α)} {k : κ}
    (h : (l.map Prod.fst).Nodup) {p : κ × α} (hp : p ∈ merase l k) : p.1 ≠ k := by
  induction l with
  | nil => simp [merase] at hp
  | cons q rest ih =>
    obtain ⟨k2, v2⟩ := q
    rw [List.map_cons, List.nodup_cons] at h
    by_cases hk : k2 = k
    · subst hk
      rw [merase] at hp
      simp only [if_pos rfl] at hp
      intro hpk
      exact h.1 (by simpa [← hpk] using List.mem_map_of_mem Prod.fst hp)
    · rw [merase] at hp
      simp only [if_neg hk] at hp
      rcases List.mem_cons.mp hp with hp1 | hp1
      · simp [hp1, hk]
      · exact ih h.2 hp1

theorem mem_minsert {κ α : Type} [DecidableEq κ] {l : List (κ × α)} {k : κ} {v : α}
    {p : κ × α} (h : p ∈ minsert l k v) : p ∈ l ∨ p = (k, v) := by
  induction l with
  | nil =>
    rw [minsert] at h
    right
    simpa using h
  | cons q rest ih =>
    obtain ⟨k2, v2⟩ := q
    by_cases hk : k2 = k
    · rw [minsert] at h
      simp only [hk, if_pos rfl] at h
      rcases List.mem_cons.mp h with h1 | h1
      · right; exact h1
      · left; exact List.mem_cons_of_mem _ h1
    · rw [minsert] at h
      simp only [if_neg hk] at h
      rcases List.mem_cons.mp h with h1 | h1
      · left; simp [h1]
      · rcases ih h1 with h2 | h2
        · left; exact List.mem_cons_of_mem _ h2
        · right; exact h2

theorem minsert_keys {κ α : Type} [DecidableEq κ] (l : List (κ × α)) (k : κ) (v : α) :
    (minsert l k v).map Prod.fst = if (mlookup l k).isSome then l.map Prod.fst
      else l.map Prod.fst ++ [k] := by
  induction l with
  | nil => simp [minsert, mlookup]
  | cons q rest ih =>
    obtain ⟨k2, v2⟩ := q
    by_cases hk : k2 = k
    · subst hk
      simp [minsert, mlookup]
    · rw [minsert, mlookup]
      simp only [if_neg hk, List.map_cons, ih]
      by_cases hs : (mlookup rest k).isSome <;> simp [hs]

theorem mlookup_none_iff {κ α : Type} [DecidableEq κ] (l : List (κ × α)) (k : κ) :
    mlookup l k = none ↔ k ∉ l.map Prod.fst := by
  induction l with
  | nil => simp [mlookup]
  | cons q rest ih =>
    obtain ⟨k2, v2⟩ := q
    by_cases hk : k2 = k
    · simp [mlookup, hk]
    · simp [mlookup, hk, ih, Ne.symm hk]

theorem nodup_keys_minsert {κ α : Type} [DecidableEq κ] {l : List (κ × α)} (k : κ) (v : α)
    (h : (l.map Prod.fst).Nodup) : ((minsert l k v).map Prod.fst).Nodup := by
  rw [minsert_keys]
  by_cases hs : (mlookup l k).isSome
  · simpa [hs] using h
  · have hn : mlookup l k = none := by
      cases hh : mlookup l k
      · rfl
      · simp [hh] at hs
    simp only [hs, if_neg, Bool.false_eq_true, not_false_eq_true, if_false]
    refine List.Nodup.append h (List.nodup_singleton k) ?h
    intro a ha hb
    rw [List.mem_singleton] at hb
    subst hb
    exact (mlookup_none_iff l a).mp hn ha

theorem mlookup_minsert_self {κ α : Type} [DecidableEq κ] (l : List (κ × α)) (k : κ) (v : α) :
    mlookup (minsert l k v) k = some v := by
  induction l with
  | nil => simp [minsert, mlookup]
  | cons q rest ih =>
    obtain ⟨k2, v2⟩ := q
    by_cases hk : k2 = k
    · simp [minsert, hk, mlookup]
    · simp [minsert, hk, mlookup, ih]

theorem intRange_empty (a b : Int) (h : b ≤ a) : intRange a b = [] := by
  unfold intRange
  have : (b - a).toNat = 0 := Int.toNat_of_nonpos (by omega)
  simp [this]

theorem intRange_snoc (a b : Int) (h : a ≤ b) :
    intRange a (b + 1) = intRange a b ++ [b] := by
  unfold intRange
  have h1 : (b + 1 - a).toNat = (b - a).toNat + 1 := by omega
  rw [h1, List.range_succ, List.map_append]
  simp
  omega

theorem mlookup_minsert_ne {κ α : Type} [DecidableEq κ] (l : List (κ × α)) {k k2 : κ}
    (v : α) (h : k2 ≠ k) : mlookup (minsert l k v) k2 = mlookup l k2 := by
  induction l with
  | nil => simp [minsert, mlookup, h, Ne.symm h]
  | cons q rest ih =>
    obtain ⟨k3, v3⟩ := q
    by_cases hk : k3 = k
    · subst hk
      simp [minsert, mlookup, h, Ne.symm h]
    · by_cases hk2 : k3 = k2 <;>
        simp [minsert, mlookup, hk, hk2, ih, h, Ne.symm h]

/-- Any fuel at least the buffer length runs the loop to completion:
the fuel bound in `deliver_buffered_messages` never binds. -/
theorem deliver_buffered_fuel_stable (f1 f2 : Nat) (st : OrderingState)
    (h1 : st.message_buffer.length ≤ f1) (h2 : st.message_buffer.length ≤ f2) :
    deliver_buffered_fuel f1 st = deliver_buffered_fuel f2 st := by
  induction f1 generalizing f2 st with
  | zero =>
    have hb : st.message_buffer = [] := List.length_eq_zero.mp (Nat.le_zero.mp h1)
    cases f2 with
    | zero => rfl
    | succ f2 => simp [deliver_buffered_fuel, hb, mlookup]
  | succ f1 ih =>
    cases f2 with
    | zero =>
      have hb : st.message_buffer = [] := List.length_eq_zero.mp (Nat.le_zero.mp h2)
      simp [deliver_buffered_fuel, hb, mlookup]
    | succ f2 =>
      rw [deliver_buffered_fuel, deliver_buffered_fuel]
      cases h : mlookup st.message_buffer st.next_expected_seq with
      | none => rfl
      | some m =>
        have hlt := merase_length_lt h
        refine ih _ _ ?g1 ?g2
        · show (merase st.message_buffer st.next_expected_seq).length ≤ f1
          omega
        · show (merase st.message_buffer st.next_expected_seq).length ≤ f2
          omega

/-- `_deliver_buffered_messages` always terminates with the frontier key
absent from the buffer. -/
theorem dbm_fuel_buffer_none (fuel : Nat) (st : OrderingState)
    (hf : st.message_buffer.length ≤ fuel) :
    mlookup (deliver_buffered_fuel fuel st).message_buffer
      (deliver_buffered_fuel fuel st).next_expected_seq = none := by
  induction fuel generalizing st with
  | zero =>
    have hb : st.message_buffer = [] := List.length_eq_zero.mp (Nat.le_zero.mp hf)
    simp [deliver_buffered_fuel, hb, mlookup]
  | succ fuel ih =>
    rw [deliver_buffered_fuel]
    cases h : mlookup st.message_buffer st.next_expected_seq with
    | none => exact h
    | some m =>
      have hlt := merase_length_lt h
      refine ih _ ?g
      show (merase st.message_buffer st.next_expected_seq).length ≤ fuel
      omega

theorem dbm_buffer_none (st : OrderingState) :
    mlookup (deliver_buffered_messages st).message_buffer
      (deliver_buffered_messages st).next_expected_seq = none :=
  dbm_fuel_buffer_none _ st le_rfl

/-- One `_deliver_message` of the message at the frontier preserves the
core invariant, provided every buffered entry sits strictly past the
frontier. -/
theorem deliver_message_core_inv {st : OrderingState} {m : ChatMessage}
    (hlog : LogInv st)
    (hbuf : ∀ p ∈ st.message_buffer,
      st.next_expected_seq < p.1 ∧ (p.2).seq_no = p.1)
    (hnodup : (st.message_buffer.map Prod.fst).Nodup)
    (hm : m.seq_no = st.next_expected_seq) :
    OrdCoreInv (deliver_message st m) := by
  obtain ⟨hle, hlog⟩ := hlog
  refine ⟨⟨?h1, ?hl⟩, ?hb, ?hn⟩
  case h1 =>
    simp only [deliver_message, hm]
    omega
  case hl =>
    simp only [deliver_message, hm, List.map_append, hlog, List.map_cons, List.map_nil]
    exact (intRange_snoc 1 st.next_expected_seq hle).symm
  case hb =>
    intro p hp
    simp only [deliver_message] at hp
    have h1 := hbuf p hp
    refine ⟨?le, h1.2⟩
    simp only [deliver_message, hm]
    omega
  case hn =>
    simpa [deliver_message] using hnodup

/-- The buffered-delivery loop preserves the core invariant. -/
theorem dbm_fuel_core_inv (fuel : Nat) (st : OrderingState)
    (hf : st.message_buffer.length ≤ fuel) (hinv : OrdCoreInv st) :
    OrdCoreInv (deliver_buffered_fuel fuel st) := by
  induction fuel generalizing st with
  | zero => simpa [deliver_buffered_fuel] using hinv
  | succ fuel ih =>
    rw [deliver_buffered_fuel]
    cases h : mlookup st.message_buffer st.next_expected_seq with
    | none => exact hinv
    | some m =>
      obtain ⟨hlogi, hbuf, hnodup⟩ := hinv
      have hmem := mlookup_mem h
      have hseq : m.seq_no = st.next_expected_seq := (hbuf _ hmem).2
      have hlt := merase_length_lt h
      refine ih _ ?fl (deliver_message_core_inv hlogi ?b (nodup_keys_merase hnodup) hseq)
      case fl =>
        show (merase st.message_buffer st.next_expected_seq).length ≤ fuel
        omega
      case b =>
        intro p hp
        have h1 := hbuf p (mem_of_mem_merase hp)
        have h2 := not_mem_merase_of_nodup hnodup hp
        refine ⟨?lt, h1.2⟩
        show st.next_expected_seq < p.1
        omega

theorem dbm_core_inv (st : OrderingState) (hinv : OrdCoreInv st) :
    OrdCoreInv (deliver_buffered_messages st) :=
  dbm_fuel_core_inv _ st le_rfl hinv

/-- `handle_seq_chat` preserves the at-rest ordering invariant. -/
theorem handle_seq_chat_inv (st : OrderingState) (msg : Message) (h : OrdInv st) :
    OrdInv (handle_seq_chat st msg).2 := by
  obtain ⟨⟨hlog, hbuf, hnodup⟩, hnone⟩ := h
  have hstrict : ∀ p ∈ st.message_buffer,
      st.next_expected_seq < p.1 ∧ (p.2).seq_no = p.1 := by
    intro p hp
    have h1 := hbuf p hp
    have h2 : p.1 ≠ st.next_expected_seq := by
      intro he
      exact (mlookup_none_iff _ _).mp hnone
        (he ▸ List.mem_map_of_mem Prod.fst hp)
    exact ⟨by omega, h1.2⟩
  unfold handle_seq_chat
  cases hsq : msg.seq_no with
  | none => exact ⟨⟨hlog, hbuf, hnodup⟩, hnone⟩
  | some s =>
    by_cases hd : dmem st (s, msg.term)
    · simp only [hd, if_true]
      exact ⟨⟨hlog, hbuf, hnodup⟩, hnone⟩
    · simp only [hd, if_false, Bool.false_eq_true]
      by_cases he : s = st.next_expected_seq
      · simp only [he, if_true, if_pos rfl]
        have hchat : (chat_of_seq_chat msg st.next_expected_seq).seq_no
            = st.next_expected_seq := rfl
        have hcore := deliver_message_core_inv hlog hstrict hnodup hchat
        exact ⟨dbm_core_inv _ hcore, dbm_buffer_none _⟩
      · simp only [he, if_false]
        by_cases hgt : s > st.next_expected_seq
        · simp only [hgt, if_true, if_pos hgt]
          refine ⟨⟨⟨hlog.1, hlog.2⟩, ?bu, ?nd⟩, ?lk⟩
          case bu =>
            intro p hp
            rcases mem_minsert hp with hp1 | hp1
            · exact ⟨(hbuf p hp1).1, (hbuf p hp1).2⟩
            · subst hp1
              refine ⟨?le2, rfl⟩
              show st.next_expected_seq ≤ s
              omega
          case nd => exact nodup_keys_minsert _ _ hnodup
          case lk =>
            have hne : st.next_expected_seq ≠ s := by omega
            show mlookup (minsert st.message_buffer s (chat_of_seq_chat msg s))
              st.next_expected_seq = none
            rw [mlookup_minsert_ne _ _ hne]
            exact hnone
        · simp only [hgt, if_false]
          exact ⟨⟨hlog, hbuf, hnodup⟩, hnone⟩

theorem intRange_getLast (b : Int) (h : 1 ≤ b) :
    ((intRange 1 b).getLast?).getD 0 = b - 1 := by
  by_cases hb : b = 1
  · subst hb
    rw [intRange_empty 1 1 le_rfl]
    rfl
  · have h2 : 1 ≤ b - 1 := by omega
    have := intRange_snoc 1 (b - 1) h2
    rw [show b = b - 1 + 1 by omega, this, List.getLast?_concat]
    simp

/-- C2 (claim theorem): starting from the initial ordering state, every
`handle_seq_chat` call preserves the invariant that the delivery callback
has been invoked with exactly the contiguous seq numbers
`1, …, next_expected_seq - 1` in increasing order, each exactly once,
that `next_expected_seq = last_delivered_seq + 1`, and that no buffer key
is below `next_expected_seq`. -/
theorem ordering_no_gaps :
    OrdInv initOrdering ∧
    (∀ st msg, OrdInv st → OrdInv (handle_seq_chat st msg).2) ∧
    (∀ st, OrdInv st →
      st.deliveredLog.map (fun m => m.seq_no) = intRange 1 st.next_expected_seq ∧
      st.next_expected_seq = last_delivered_seq st + 1 ∧
      ∀ p ∈ st.message_buffer, st.next_expected_seq ≤ p.1) := by
  refine ⟨by decide, handle_seq_chat_inv, ?obs⟩
  case obs =>
    intro st h
    obtain ⟨⟨⟨hle, hlog⟩, hbuf, _⟩, _⟩ := h
    refine ⟨hlog, ?lda, fun p hp => (hbuf p hp).1⟩
    unfold last_delivered_seq
    rw [hlog, intRange_getLast _ hle]
    omega

/-- Witness for C2 at a concrete input: the initial state satisfies the
invariant, and handling a concrete SEQ_CHAT preserves it. -/
theorem ordering_no_gaps_witness :
    OrdInv initOrdering ∧ OrdInv (handle_seq_chat initOrdering msgW1).2 :=
  ⟨ordering_no_gaps.1,
   ordering_no_gaps.2.1 initOrdering msgW1 (by decide)⟩

/-- C1 (claim theorem): case analysis of `handle_seq_chat` on a SEQ_CHAT
message: missing `seq_no` is rejected with the state unchanged; a pair
already delivered is dropped unchanged; the frontier message is delivered
and then buffered messages are drained until the (new) frontier is absent
from the buffer; a future message is buffered; a stale one is dropped
unchanged. -/
theorem handle_seq_chat_cases (st : OrderingState) (msg : Message) :
    (msg.seq_no = none → handle_seq_chat st msg = (false, st)) ∧
    (∀ s, msg.seq_no = some s →
      (dmem st (s, msg.term) = true → handle_seq_chat st msg = (false, st)) ∧
      (dmem st (s, msg.term) = false →
        (s = st.next_expected_seq →
          handle_seq_chat st msg =
            (true, deliver_buffered_messages
              (deliver_message st (chat_of_seq_chat msg s))) ∧
          mlookup (handle_seq_chat st msg).2.message_buffer
            (handle_seq_chat st msg).2.next_expected_seq = none) ∧
        (st.next_expected_seq < s →
          handle_seq_chat st msg =
            (false, { st with
              message_buffer := minsert st.message_buffer s (chat_of_seq_chat msg s) })) ∧
        (s < st.next_expected_seq →
          handle_seq_chat st msg = (false, st)))) := by
  constructor
  · intro h
    unfold handle_seq_chat
    rw [h]
  · intro s hs
    refine ⟨?dup, ?rest⟩
    case dup =>
      intro hd
      unfold handle_seq_chat
      rw [hs]
      simp [hd]
    case rest =>
      intro hd
      refine ⟨?del, ?buf, ?stale⟩
      case del =>
        intro he
        subst he
        have heq : handle_seq_chat st msg =
            (true, deliver_buffered_messages
              (deliver_message st (chat_of_seq_chat msg st.next_expected_seq))) := by
          unfold handle_seq_chat
          rw [hs]
          simp [hd]
        refine ⟨heq, ?nk⟩
        rw [heq]
        exact dbm_buffer_none _
      case buf =>
        intro hgt
        unfold handle_seq_chat
        rw [hs]
        simp only [hd, Bool.false_eq_true, if_false]
        rw [if_neg (by omega), if_pos hgt]
      case stale =>
        intro hlt
        unfold handle_seq_chat
        rw [hs]
        simp only [hd, Bool.false_eq_true, if_false]
        rw [if_neg (by omega), if_neg (by omega)]

/-- Witness for C1 at a concrete input: a fresh state receiving the
frontier message `seq_no = 1` delivers it. -/
theorem handle_seq_chat_cases_witness :
    dmem initOrdering (1, 1) = false ∧
    handle_seq_chat initOrdering msgW1 =
      (true, deliver_buffered_messages
        (deliver_message initOrdering (chat_of_seq_chat msgW1 1))) :=
  ⟨by decide,
   ((((handle_seq_chat_cases initOrdering msgW1).2 1 rfl).2 (by decide)).1 rfl).1⟩

/-- C4 counterexample: `_deliver_message` does not update `last_seq`:
delivering `seq_no = 1` from the fresh state leaves `last_seq = 0`, not
`max(last_seq, 1) = 1` as the claim states. -/
theorem deliver_message_last_seq_cex :
    (deliver_message initOrdering chatA).last_seq = 0 ∧
    ((0 : Int) ≠ max initOrdering.last_seq chatA.seq_no) := by
  constructor
  · rfl
  · decide

/-- C4 (amended claim theorem): after `_deliver_message` on a message with
sequence number `s` and term `t`, the pair `(s, t)` is in the delivered
set, `next_expected_seq = s + 1`, the delivery callback has been invoked
with that message — and `last_seq` is left unchanged (the source never
updates it there). -/
theorem deliver_message_spec (st : OrderingState) (m : ChatMessage) :
    dmem (deliver_message st m) (m.seq_no, m.term) = true ∧
    (deliver_message st m).next_expected_seq = m.seq_no + 1 ∧
    (deliver_message st m).last_seq = st.last_seq ∧
    (deliver_message st m).deliveredLog = st.deliveredLog ++ [m] := by
  refine ⟨?dm, rfl, rfl, rfl⟩
  unfold dmem deliver_message
  rw [mlookup_minsert_self]
  rfl

/-- C8 counterexample: after startup recovery with one stored message
`(seq_no = 1, term = 1)`, that pair is NOT in the delivered set — recovery
never marks loaded messages delivered (the claim's final clause fails). -/
theorem recovery_delivered_cex :
    recoverLastSeq [chatA] = 1 ∧
    dmem (recovery_seed [chatA]) (1, 1) = false := by
  constructor
  · rfl
  · rfl

/-- C8 (amended claim theorem): `set_last_seq(s)` sets
`last_seq = max(last_seq, s)` and
`next_expected_seq = max(next_expected_seq, s + 1)` and touches nothing
else; startup recovery leaves the delivered set empty (loaded messages are
not marked; stale retransmissions are instead dropped by the
`seq_no < next_expected_seq` check of `handle_seq_chat`). -/
theorem set_last_seq_spec :
    (∀ st seq, (set_last_seq st seq).last_seq = max st.last_seq seq ∧
      (set_last_seq st seq).next_expected_seq = max st.next_expected_seq (seq + 1) ∧
      (set_last_seq st seq).message_buffer = st.message_buffer ∧
      (set_last_seq st seq).delivered = st.delivered ∧
      (set_last_seq st seq).deliveredLog = st.deliveredLog) ∧
    (∀ msgs, (recovery_seed msgs).delivered = [] ∧
      (recovery_seed msgs).deliveredLog = []) := by
  exact ⟨fun st seq => ⟨rfl, rfl, rfl, rfl, rfl⟩, fun msgs => ⟨rfl, rfl⟩⟩

/-- C3 (code-bug theorem): delivering the same frame `(seq_no = 7,
term = 2)` three times invokes the delivery callback exactly once and
advances `next_expected_seq` exactly once (7 → 8), and the second and
third calls return the state unchanged — but storage receives TWO appends
of the message, not one: `_on_deliver_message` (the delivery callback)
appends it and the SEQ_CHAT branch of `_handle_message` appends it again. -/
theorem seq_chat_duplicate_double_append :
    (handle_message_seq_chat (handle_message_seq_chat
        (handle_message_seq_chat nodeChat7 msgSeq7) msgSeq7) msgSeq7).storage_appends.length
      = 2 ∧
    (handle_message_seq_chat (handle_message_seq_chat
        (handle_message_seq_chat nodeChat7 msgSeq7) msgSeq7) msgSeq7).storage_appends.length
      ≠ 1 ∧
    (handle_message_seq_chat (handle_message_seq_chat
        (handle_message_seq_chat nodeChat7 msgSeq7) msgSeq7) msgSeq7).ord.deliveredLog.length
      = 1 ∧
    nodeChat7.ord.next_expected_seq = 7 ∧
    (handle_message_seq_chat nodeChat7 msgSeq7).ord.next_expected_seq = 8 ∧
    handle_message_seq_chat (handle_message_seq_chat nodeChat7 msgSeq7) msgSeq7
      = handle_message_seq_chat nodeChat7 msgSeq7 := by
  refine ⟨?a, ?b, ?c, ?d, ?e, ?f⟩ <;> decide

/-- C5 (code-bug theorem): the two `current_term` attributes desynchronize
and the node-level term DECREASES.  A HEARTBEAT with term 5 raises
`ChatNode.current_term` to 5 but leaves `ElectionManager.current_term` at
0; a subsequent COORDINATOR with term 1 passes the election-side guard
(`1 ≥ 0`) and its callback overwrites `ChatNode.current_term` with 1. -/
theorem node_term_decreases :
    (node_step nodeA (.heartbeat (mkMessage .HEARTBEAT 2 5))).current_term = 5 ∧
    (node_step nodeA (.heartbeat (mkMessage .HEARTBEAT 2 5))).election.current_term = 0 ∧
    (node_step (node_step nodeA (.heartbeat (mkMessage .HEARTBEAT 2 5)))
      (.coordinator (mkMessage .COORDINATOR 2 1))).current_term = 1 := by
  refine ⟨?a, ?b, ?c⟩ <;> decide

/-- The election manager's own `current_term` never decreases under any
handler (the property C5 claims does hold for that attribute). -/
theorem election_term_monotone (st : ChatNode) (e : NodeEvent) :
    st.election.current_term ≤ (node_step st e).election.current_term := by
  cases e with
  | heartbeat m =>
    show st.election.current_term ≤ (handle_heartbeat st m).election.current_term
    unfold handle_heartbeat
    split <;> exact le_rfl
  | election m =>
    show st.election.current_term ≤ (handle_election_message st m).1.election.current_term
    unfold handle_election_message
    split
    · split <;> exact le_rfl
    · exact le_rfl
  | electionOk m => exact le_rfl
  | coordinator m =>
    show st.election.current_term ≤ (handle_coordinator_message st m).election.current_term
    unfold handle_coordinator_message
    split
    · rename_i h
      simpa using h
    · exact le_rfl
  | join m => exact le_rfl
  | joinAck m => exact le_rfl
  | startElection ok =>
    show st.election.current_term ≤ (start_election st ok).node.election.current_term
    unfold start_election become_coordinator
    split
    · exact le_rfl
    · dsimp only
      split
      · show st.election.current_term ≤ st.election.current_term + 1
        omega
      · split
        · show st.election.current_term ≤ st.election.current_term + 1
          omega
        · show st.election.current_term ≤ st.election.current_term + 1
          omega

/-- C6 (claim theorem): `start_election` from the idle state increments
the election term by exactly one, sends ELECTION carrying the new term to
every known peer of strictly higher id, wins immediately when no such
peer exists (regardless of any ELECTION_OK), and otherwise wins after the
wait exactly when no ELECTION_OK arrived; when one arrived it returns
without declaring itself coordinator, leaving role and leader unchanged. -/
theorem start_election_from_idle (st : ChatNode) (ok : Bool)
    (hidle : st.election.election_in_progress = false) :
    (start_election st ok).node.election.current_term = st.election.current_term + 1 ∧
    (start_election st ok).node.election.received_ok =
      (if get_higher_priority_peers st.membership = [] then false else ok) ∧
    (get_higher_priority_peers st.membership = [] →
      (start_election st ok).won = true ∧
      (start_election st ok).node.role = NodeRole.LEADER ∧
      (start_election st ok).node.membership.leader_id = some st.node_id ∧
      (start_election st ok).node.current_term = st.election.current_term + 1 ∧
      (start_election st ok).sent =
        (get_other_peers (set_leader st.membership st.node_id)).map
          (fun p => (p, mkMessage .COORDINATOR st.node_id (st.election.current_term + 1)))) ∧
    (get_higher_priority_peers st.membership ≠ [] →
      (start_election st ok).sent.take (get_higher_priority_peers st.membership).length =
        (get_higher_priority_peers st.membership).map
          (fun p => (p, mkMessage .ELECTION st.node_id (st.election.current_term + 1))) ∧
      (ok = false →
        (start_election st ok).won = true ∧
        (start_election st ok).node.role = NodeRole.LEADER ∧
        (start_election st ok).node.membership.leader_id = some st.node_id ∧
        (start_election st ok).node.current_term = st.election.current_term + 1) ∧
      (ok = true →
        (start_election st ok).won = false ∧
        (start_election st ok).node.role = st.role ∧
        (start_election st ok).node.membership.leader_id = st.membership.leader_id ∧
        (start_election st ok).node.current_term = st.current_term ∧
        (start_election st ok).sent =
          (get_higher_priority_peers st.membership).map
            (fun p => (p, mkMessage .ELECTION st.node_id (st.election.current_term + 1))))) := by
  unfold start_election become_coordinator
  rw [hidle]
  by_cases hh : get_higher_priority_peers st.membership = []
  · simp [hh, List.isEmpty_iff, set_leader]
  · cases ok with
    | false => simp [hh, List.isEmpty_iff, set_leader]
    | true => simp [hh, List.isEmpty_iff, set_leader]

/-- Witness for C6 at a concrete input: node 1 with higher peer 2 known,
no ELECTION_OK arriving. -/
theorem start_election_from_idle_witness :
    nodeA.election.election_in_progress = false ∧
    (start_election nodeA false).node.election.current_term
      = nodeA.election.current_term + 1 ∧
    (start_election nodeA false).won = true :=
  ⟨rfl, (start_election_from_idle nodeA false rfl).1,
   (((start_election_from_idle nodeA false rfl).2.2.2 (by decide)).2.1 rfl).1⟩

/-- C7 counterexample: the JOIN_ACK built by `_handle_join` of a node
whose leader is set carries NO `leader_id`, and `_handle_join_ack` on a
message carrying `leader_id = 3` and term 5 adopts neither: leader stays
unset, term stays 0, role stays FOLLOWER. -/
theorem join_ack_no_leader_cex :
    nodeL.membership.leader_id = some 2 ∧
    (join_ack_message nodeL (mkMessage .JOIN 1 0)).leader_id = none ∧
    (handle_join_ack nodeA joinAckIn).membership.leader_id = none ∧
    (handle_join_ack nodeA joinAckIn).current_term = 0 ∧
    (handle_join_ack nodeA joinAckIn).role = NodeRole.FOLLOWER ∧
    joinAckIn.leader_id = some 3 ∧ joinAckIn.term = 5 := by
  refine ⟨?a, ?b, ?c, ?d, ?e, ?f, ?g⟩ <;> decide

/-- C7 (amended claim theorem): `_handle_join` merges the request's
membership and replies with a JOIN_ACK carrying the merged snapshot and
the handler's term but NO `leader_id`.  When the handler is the leader
and the joiner's address is known in the merged membership, it
additionally sends exactly one COORDINATOR — carrying its current term
and its own sender id — to the joiner's address (that message, not the
JOIN_ACK, propagates leader identity); when the handler is not the
leader, or the joiner's address is unknown after the merge, no
COORDINATOR is sent.  `_handle_join_ack` merges the carried membership
and changes nothing else: `leader_id`, `current_term` and `role` are
untouched. -/
theorem join_handshake_spec (st : ChatNode) (message : Message) :
    (join_ack_message st message).type = MessageType.JOIN_ACK ∧
    (join_ack_message st message).membership =
      some (get_membership_list (merged_membership st message)) ∧
    (join_ack_message st message).leader_id = none ∧
    (join_ack_message st message).term = st.current_term ∧
    (handle_join st message).1 = { st with membership := merged_membership st message } ∧
    (handle_join st message).2 =
      join_reply st message :: join_coordinator_sends st message ∧
    (join_reply st message).2 = join_ack_message st message ∧
    ((handle_join st message).2.map Prod.snd).head? = some (join_ack_message st message) ∧
    (∀ d m2, (d, m2) ∈ (handle_join st message).2 →
      m2 = join_ack_message st message ∨
      (st.role = NodeRole.LEADER ∧ m2.type = MessageType.COORDINATOR ∧
        m2.term = st.current_term ∧ m2.sender_id = st.node_id)) ∧
    (st.role = NodeRole.LEADER →
      ∀ p, get_peer (merged_membership st message) message.sender_id = some p →
        join_coordinator_sends st message =
          [(Dest.peer p, join_coordinator_message st message)]) ∧
    (join_coordinator_message st message).type = MessageType.COORDINATOR ∧
    (join_coordinator_message st message).term = st.current_term ∧
    (join_coordinator_message st message).sender_id = st.node_id ∧
    (¬st.role = NodeRole.LEADER → join_coordinator_sends st message = []) ∧
    (get_peer (merged_membership st message) message.sender_id = none →
      join_coordinator_sends st message = []) ∧
    handle_join_ack st message = { st with membership := merged_membership st message } := by
  refine ⟨rfl, rfl, rfl, rfl, rfl, rfl, ?rp, ?hd, ?snd, ?co, rfl, rfl, rfl, ?nl, ?nop, rfl⟩
  case rp =>
    unfold join_reply
    cases h : get_peer (merged_membership st message) message.sender_id <;> rfl
  case hd =>
    show ((join_reply st message :: join_coordinator_sends st message).map Prod.snd).head?
      = some (join_ack_message st message)
    unfold join_reply
    cases h : get_peer (merged_membership st message) message.sender_id <;> simp
  case snd =>
    intro d m2 hm
    replace hm : (d, m2) ∈ join_reply st message :: join_coordinator_sends st message := hm
    rcases List.mem_cons.mp hm with hm1 | hm1
    · left
      unfold join_reply at hm1
      cases h : get_peer (merged_membership st message) message.sender_id <;>
        rw [h] at hm1 <;> exact congrArg Prod.snd hm1
    · unfold join_coordinator_sends at hm1
      by_cases hrole : st.role = NodeRole.LEADER
      · rw [if_pos hrole] at hm1
        cases h : get_peer (merged_membership st message) message.sender_id <;>
          rw [h] at hm1
        · simp at hm1
        · rw [List.mem_singleton] at hm1
          have hm2 : m2 = _ := congrArg Prod.snd hm1
          right
          refine ⟨hrole, ?t1, ?t2, ?t3⟩
          · rw [hm2]; rfl
          · rw [hm2]; rfl
          · rw [hm2]; rfl
      · rw [if_neg hrole] at hm1
        simp at hm1
  case co =>
    intro hrole p hp
    unfold join_coordinator_sends
    rw [if_pos hrole, hp]
  case nl =>
    intro hrole
    unfold join_coordinator_sends
    rw [if_neg hrole]
  case nop =>
    intro hp
    unfold join_coordinator_sends
    by_cases hrole : st.role = NodeRole.LEADER
    · rw [if_pos hrole, hp]
    · rw [if_neg hrole]

theorem mlookup_merase_self {κ α : Type} [DecidableEq κ] {l : List (κ × α)} (k : κ)
    (h : (l.map Prod.fst).Nodup) : mlookup (merase l k) k = none := by
  rw [mlookup_none_iff]
  intro hmem
  obtain ⟨p, hp, hpk⟩ := List.mem_map.mp hmem
  exact not_mem_merase_of_nodup h hp hpk

/-- Under unique keys, a list member is what lookup finds. -/
theorem mlookup_of_mem_nodup {κ α : Type} [DecidableEq κ] {l : List (κ × α)}
    (hn : (l.map Prod.fst).Nodup) {p : κ × α} (hp : p ∈ l) :
    mlookup l p.1 = some p.2 := by
  induction l with
  | nil => simp at hp
  | cons q rest ih =>
    rw [List.map_cons, List.nodup_cons] at hn
    rcases List.mem_cons.mp hp with h1 | h1
    · subst h1
      simp [mlookup]
    · obtain ⟨k2, v2⟩ := q
      have hne : k2 ≠ p.1 := by
        intro he
        apply hn.1
        rw [he]
        exact List.mem_map.mpr ⟨p, h1, rfl⟩
      simp only [mlookup, if_neg hne]
      exact ih hn.2 h1

/-- Membership in `get_failed_peers` under unique counter keys. -/
theorem mem_get_failed_peers (st : TransportLayer)
    (hn : (st.failure_counts.map Prod.fst).Nodup) (a : String × Int) :
    a ∈ get_failed_peers st ↔
      ∃ n, mlookup st.failure_counts a = some n ∧ st.max_failures ≤ n := by
  unfold get_failed_peers
  constructor
  · intro h
    obtain ⟨p, hp, hpa⟩ := List.mem_map.mp h
    obtain ⟨hpl, hge⟩ := List.mem_filter.mp hp
    refine ⟨p.2, ?lk, by simpa using hge⟩
    subst hpa
    exact mlookup_of_mem_nodup hn hpl
  · rintro ⟨n, hlk, hge⟩
    have hmem := mlookup_mem hlk
    exact List.mem_map.mpr ⟨(a, n), List.mem_filter.mpr ⟨hmem, by simpa using hge⟩, rfl⟩

/-- C9 counterexample: with 2 consecutive failures recorded and no cached
connection, a `send_to` whose TCP connect succeeds but whose write fails
returns false and leaves the counter at 1 — not at 3 as "increments its
failure counter" requires — because the successful connect clears the
counter before the write fails. -/
theorem send_to_counter_reset_cex :
    mlookup transport2fails.failure_counts ("h", 1) = some 2 ∧
    (send_to transport2fails "h" 1 true false).1 = false ∧
    mlookup (send_to transport2fails "h" 1 true false).2.failure_counts ("h", 1)
      = some 1 ∧
    (some 1 ≠ some ((2 : Nat) + 1)) := by
  refine ⟨?a, ?b, ?c, ?d⟩ <;> decide

/-- C9 (amended claim theorem): a failed `send_to` leaves no cached
connection for the address and returns false, and its failure counter
afterwards is the pre-call counter plus one — except when a fresh connect
succeeded during the call (which resets the counter first), in which case
it is exactly 1.  A successful send clears the counter.  An address is in
`get_failed_peers()` exactly when its counter has reached `max_failures`
(default 3). -/
theorem send_to_spec (st : TransportLayer) (host : String) (port : Int)
    (cOk sOk : Bool)
    (hc : (st.connections.map Prod.fst).Nodup)
    (hn : (st.failure_counts.map Prod.fst).Nodup) :
    ((send_to st host port cOk sOk).1 = false →
      mlookup (send_to st host port cOk sOk).2.connections (host, port) = none ∧
      mlookup (send_to st host port cOk sOk).2.failure_counts (host, port) =
        some (if mlookup st.connections (host, port) = none ∧ cOk = true then 1
              else (mlookup st.failure_counts (host, port)).getD 0 + 1)) ∧
    ((send_to st host port cOk sOk).1 = true →
      mlookup (send_to st host port cOk sOk).2.failure_counts (host, port) = none) ∧
    (∀ a, a ∈ get_failed_peers (send_to st host port cOk sOk).2 ↔
      ∃ n, mlookup (send_to st host port cOk sOk).2.failure_counts a = some n ∧
        st.max_failures ≤ n) := by
  by_cases h1 : (mlookup st.connections (host, port)).isSome
  · have hne : ¬(mlookup st.connections (host, port) = none ∧ cOk = true) := by
      rintro ⟨hno, _⟩
      rw [hno] at h1
      simp at h1
    cases sOk with
    | true =>
      have hstep : send_to st host port cOk true =
          (true, { st with failure_counts := merase st.failure_counts (host, port) }) := by
        simp [send_to, connect, h1]
      rw [hstep]
      refine ⟨?f, ?s, ?r⟩
      case f => intro hf; simp at hf
      case s =>
        intro _
        exact mlookup_merase_self _ hn
      case r =>
        exact mem_get_failed_peers _ (nodup_keys_merase (k := (host, port)) hn)
    | false =>
      have hstep : send_to st host port cOk false =
          (false, { st with
            connections := merase st.connections (host, port),
            failure_counts := minsert st.failure_counts (host, port)
              ((mlookup st.failure_counts (host, port)).getD 0 + 1) }) := by
        simp [send_to, connect, h1]
      rw [hstep]
      refine ⟨?f, ?s, ?r⟩
      case f =>
        intro _
        refine ⟨mlookup_merase_self _ hc, ?cnt⟩
        rw [if_neg hne]
        exact mlookup_minsert_self _ _ _
      case s => intro hf; simp at hf
      case r =>
        exact mem_get_failed_peers _ (nodup_keys_minsert _ _ hn)
  · have h1n : mlookup st.connections (host, port) = none := by
      cases h : mlookup st.connections (host, port)
      · rfl
      · rw [h] at h1; simp at h1
    cases cOk with
    | true =>
      cases sOk with
      | true =>
        have hstep : send_to st host port true true =
            (true, { st with
              connections := minsert st.connections (host, port) (),
              failure_counts :=
                merase (merase st.failure_counts (host, port)) (host, port) }) := by
          simp [send_to, connect, h1n]
        rw [hstep]
        refine ⟨?f, ?s, ?r⟩
        case f => intro hf; simp at hf
        case s =>
          intro _
          exact mlookup_merase_self _ (nodup_keys_merase (k := (host, port)) hn)
        case r =>
          exact mem_get_failed_peers _
            (nodup_keys_merase (k := (host, port))
              (nodup_keys_merase (k := (host, port)) hn))
      | false =>
        have hstep : send_to st host port true false =
            (false, { st with
              connections := merase (minsert st.connections (host, port) ()) (host, port),
              failure_counts := minsert (merase st.failure_counts (host, port)) (host, port)
                ((mlookup (merase st.failure_counts (host, port)) (host, port)).getD 0
                  + 1) }) := by
          simp [send_to, connect, h1n]
        rw [hstep]
        refine ⟨?f, ?s, ?r⟩
        case f =>
          intro _
          have hcond : mlookup st.connections (host, port) = none ∧ true = true :=
            ⟨h1n, rfl⟩
          refine And.intro (mlookup_merase_self _ (nodup_keys_minsert _ _ hc)) ?cnt1
          case cnt1 =>
            rw [if_pos hcond, mlookup_minsert_self, mlookup_merase_self _ hn]
            rfl
        case s => intro hf; simp at hf
        case r =>
          exact mem_get_failed_peers _
            (nodup_keys_minsert _ _ (nodup_keys_merase (k := (host, port)) hn))
    | false =>
      have hstep : send_to st host port false sOk =
          (false, { st with
            failure_counts := minsert st.failure_counts (host, port)
              ((mlookup st.failure_counts (host, port)).getD 0 + 1) }) := by
        simp [send_to, connect, h1n]
      rw [hstep]
      refine ⟨?f, ?s, ?r⟩
      case f =>
        intro _
        have hcond : ¬(mlookup st.connections (host, port) = none ∧ false = true) := by
          rintro ⟨_, hc2⟩
          exact Bool.false_ne_true hc2
        refine And.intro h1n ?cnt2
        case cnt2 =>
          rw [if_neg hcond]
          exact mlookup_minsert_self _ _ _
      case s => intro hf; simp at hf
      case r =>
        exact mem_get_failed_peers _ (nodup_keys_minsert _ _ hn)

/-- Witness for C9 at a concrete input: the two-failures state with a
failing connect (third consecutive failure reaches the threshold). -/
theorem send_to_spec_witness :
    (send_to transport2fails "h" 1 false false).1 = false ∧
    mlookup (send_to transport2fails "h" 1 false false).2.failure_counts ("h", 1)
      = some 3 ∧
    ("h", 1) ∈ get_failed_peers (send_to transport2fails "h" 1 false false).2 := by
  refine ⟨by decide, by decide, ?r⟩
  refine ((send_to_spec transport2fails "h" 1 false false (by decide) (by decide)).2.2
    ("h", 1)).mpr ⟨3, by decide, by decide⟩

/-- C10 counterexample: the round trip is NOT the identity on a CHAT
message without `msg_id`: `from_json` runs `__post_init__`, which
installs a fresh UUID, so the decoded message differs from the original
(its `msg_id` is `some` of the fresh id, not `none`) — whatever UUID is
drawn. -/
theorem message_roundtrip_cex :
    Message.from_dict "3f2b" chatNoId.to_dict ≠ some chatNoId ∧
    (Message.from_dict "3f2b" chatNoId.to_dict).map (fun m => m.msg_id)
      = some (some "3f2b") := by
  constructor
  · decide
  · decide

theorem mlookup_append {κ α : Type} [DecidableEq κ] (l1 l2 : List (κ × α)) (k : κ) :
    mlookup (l1 ++ l2) k =
      match mlookup l1 k with
      | some v => some v
      | none => mlookup l2 k := by
  induction l1 with
  | nil => simp [mlookup]
  | cons q rest ih =>
    obtain ⟨k2, v2⟩ := q
    by_cases hk : k2 = k <;> simp [mlookup, hk, ih]

theorem mlookup_optField_ne {α : Type} (k k2 : String) (g : α → Json) (o : Option α)
    (h : ¬k = k2) : mlookup (optField k g o) k2 = none := by
  cases o <;> simp [optField, mlookup, h]

theorem mlookup_optField_self {α : Type} (k : String) (g : α → Json) (o : Option α) :
    mlookup (optField k g o) k = o.map g := by
  cases o <;> simp [optField, mlookup]

theorem to_dict_type (m : Message) :
    mlookup m.to_dict "type" = some (.str m.type.value) := by
  simp [Message.to_dict, mlookup_append, mlookup]

theorem to_dict_sender (m : Message) :
    mlookup m.to_dict "sender_id" = some (.int m.sender_id) := by
  simp [Message.to_dict, mlookup_append, mlookup]

theorem to_dict_term (m : Message) :
    mlookup m.to_dict "term" = some (.int m.term) := by
  simp [Message.to_dict, mlookup_append, mlookup]

theorem to_dict_room (m : Message) :
    mlookup m.to_dict "room_id" = some (.str m.room_id) := by
  simp [Message.to_dict, mlookup_append, mlookup]

theorem to_dict_msg_id (m : Message) :
    mlookup m.to_dict "msg_id" = m.msg_id.map Json.str := by
  cases hm : m.msg_id <;>
    simp [Message.to_dict, mlookup_append, mlookup, mlookup_optField_ne,
      mlookup_optField_self, hm]

theorem to_dict_seq_no (m : Message) :
    mlookup m.to_dict "seq_no" = m.seq_no.map Json.int := by
  cases hm : m.seq_no <;>
    simp [Message.to_dict, mlookup_append, mlookup, mlookup_optField_ne,
      mlookup_optField_self, hm]

theorem to_dict_payload (m : Message) :
    mlookup m.to_dict "payload" = m.payload := by
  cases hm : m.payload <;>
    simp [Message.to_dict, mlookup_append, mlookup, mlookup_optField_ne,
      mlookup_optField_self, hm]

theorem to_dict_membership (m : Message) :
    mlookup m.to_dict "membership" = m.membership.map Json.arr := by
  cases hm : m.membership <;>
    simp [Message.to_dict, mlookup_append, mlookup, mlookup_optField_ne,
      mlookup_optField_self, hm]

theorem to_dict_last_seq (m : Message) :
    mlookup m.to_dict "last_seq" = m.last_seq.map Json.int := by
  cases hm : m.last_seq <;>
    simp [Message.to_dict, mlookup_append, mlookup, mlookup_optField_ne,
      mlookup_optField_self, hm]

theorem to_dict_leader_id (m : Message) :
    mlookup m.to_dict "leader_id" = m.leader_id.map Json.int := by
  cases hm : m.leader_id <;>
    simp [Message.to_dict, mlookup_append, mlookup, mlookup_optField_ne,
      mlookup_optField_self, hm]

theorem dec_msg_id (m : Message) : getOptStr m.to_dict "msg_id" = some m.msg_id := by
  unfold getOptStr
  rw [to_dict_msg_id]
  cases m.msg_id <;> rfl

theorem dec_seq_no (m : Message) : getOptInt m.to_dict "seq_no" = some m.seq_no := by
  unfold getOptInt
  rw [to_dict_seq_no]
  cases m.seq_no <;> rfl

theorem dec_membership (m : Message) :
    getOptArr m.to_dict "membership" = some m.membership := by
  unfold getOptArr
  rw [to_dict_membership]
  cases m.membership <;> rfl

theorem dec_last_seq (m : Message) : getOptInt m.to_dict "last_seq" = some m.last_seq := by
  unfold getOptInt
  rw [to_dict_last_seq]
  cases m.last_seq <;> rfl

theorem dec_leader_id (m : Message) :
    getOptInt m.to_dict "leader_id" = some m.leader_id := by
  unfold getOptInt
  rw [to_dict_leader_id]
  cases m.leader_id <;> rfl

theorem dec_payload (m : Message) (h : m.payload ≠ some .null) :
    getPayload m.to_dict = m.payload := by
  unfold getPayload
  rw [to_dict_payload]
  match hw : m.payload with
  | none => rfl
  | some .null => exact absurd hw h
  | some (.bool b) => rfl
  | some (.int n) => rfl
  | some (.str s) => rfl
  | some (.arr l) => rfl
  | some (.obj kvs) => rfl

/-- C10 (amended claim theorem): the dict-level round trip is the
identity on every `Message` whose `msg_id` is present whenever its type
is CHAT or SEQ_CHAT (otherwise `__post_init__` regenerates it — the
counterexample above).  The hypothesis `payload ≠ some null` excludes a
value with no Python counterpart: a Python payload of `None` is the
absent case `none`, and a JSON `null` payload loads back as `None`. -/
theorem message_roundtrip (fresh : String) (m : Message)
    (hmid : (m.type = .CHAT ∨ m.type = .SEQ_CHAT) → m.msg_id ≠ none)
    (hpay : m.payload ≠ some .null) :
    Message.from_dict fresh m.to_dict = some m := by
  have hty : MessageType.ofString m.type.value = some m.type := by
    cases m.type <;> rfl
  have hpi : post_init fresh m = m := by
    unfold post_init
    by_cases ht : m.msg_id = none ∧ (m.type = .CHAT ∨ m.type = .SEQ_CHAT)
    · exact absurd ht.1 (hmid ht.2)
    · rw [if_neg ht]
  unfold Message.from_dict
  simp only [to_dict_type, to_dict_sender, to_dict_term, to_dict_room,
    dec_msg_id, dec_seq_no, dec_membership, dec_last_seq, dec_leader_id,
    dec_payload m hpay, Option.bind_eq_bind', Option.some_bind']
  simp only [hty, Option.some_bind']
  show some (post_init fresh m) = some m
  rw [hpi]

/-- Witness for C10 at a concrete input: a SEQ_CHAT with its `msg_id`
present round-trips unchanged. -/
theorem message_roundtrip_witness :
    ((msgW1.type = .CHAT ∨ msgW1.type = .SEQ_CHAT) → msgW1.msg_id ≠ none) ∧
    Message.from_dict "u" msgW1.to_dict = some msgW1 :=
  ⟨by decide, message_roundtrip "u" msgW1 (by decide) (by decide)⟩

/-- Witness for C7 at a concrete input: the leader handling a JOIN from a
known joiner really does emit the single COORDINATOR to that joiner,
carrying its current term. -/
theorem join_handshake_spec_witness :
    nodeL.role = NodeRole.LEADER ∧
    get_peer (merged_membership nodeL joinFrom1) joinFrom1.sender_id = some peer1 ∧
    join_coordinator_sends nodeL joinFrom1
      = [(Dest.peer peer1, join_coordinator_message nodeL joinFrom1)] ∧
    (join_coordinator_message nodeL joinFrom1).type = MessageType.COORDINATOR ∧
    (join_coordinator_message nodeL joinFrom1).term = nodeL.current_term ∧
    (join_coordinator_message nodeL joinFrom1).sender_id = nodeL.node_id :=
  ⟨by decide, by decide,
   (join_handshake_spec nodeL joinFrom1).2.2.2.2.2.2.2.2.2.1 (by decide) peer1 (by decide),
   (join_handshake_spec nodeL joinFrom1).2.2.2.2.2.2.2.2.2.2.1,
   (join_handshake_spec nodeL joinFrom1).2.2.2.2.2.2.2.2.2.2.2.1,
   (join_handshake_spec nodeL joinFrom1).2.2.2.2.2.2.2.2.2.2.2.2.1⟩

end DistChat
